import Mathlib

/-!
Shallow embedding of the `axmldecoder` crate (Android binary-XML decoder).

The Lean definitions below are translated directly from the Rust sources:

* `src/lib.rs`        — top-level `parse`, chunk headers, primitive reads
* `src/binaryxml.rs`  — node-chunk records and `BinaryXmlDocument::read_from_file`
* `src/stringpool.rs` — string-pool decoding and `StringPool::get`
* `src/resource_value.rs` — typed values and `ResourceValue::get_value`
* `src/xml.rs`        — the stack-based tree builder `XmlDocument::new`

Modelling conventions:

* A Rust byte buffer is a `List Nat`; every read takes the byte modulo 256,
  mirroring the `u8` representation.  Multi-byte reads are little-endian,
  exactly as `byteorder::LittleEndian` does.
* Fallible Rust functions returning `Result<_, ParseError>` become functions
  into `PRes`, which has a third outcome `panic` used wherever the Rust code
  can abort the process (`unwrap()` on `None`/`Err`, `assert_eq!`,
  `unimplemented!()`, slice-index panics, `usize` subtraction underflow).
* Functions that return plain values in Rust but can panic become functions
  into `Option`, with `none` modelling the panic.
* `Rc<String>` is modelled as `String`; `HashMap` is modelled as an
  association list whose observable behaviour (lookup, last-write-wins
  insert) matches the map.
-/

namespace Axml

/-- Error type of the crate.  `lib.rs` declares `InvalidFile` and
`IoError`; the other variants appear in `binaryxml.rs` and
`stringpool.rs` (`MissingStringPoolChunk`, `MissingResourceMapChunk`,
`Utf16StringParseError`, `Utf8StringParseError`).  The `std::io::Error` /
`FromUtf16Error` / `FromUtf8Error` payloads are never inspected by the
crate, so they are dropped. -/
inductive ParseError where
  | InvalidFile
  | IoError
  | MissingStringPoolChunk
  | MissingResourceMapChunk
  | Utf16StringParseError
  | Utf8StringParseError
deriving DecidableEq, Repr

/-- Outcome of running a piece of the decoder: a value, a returned
`ParseError`, or a process abort (Rust `panic!`). -/
inductive PRes (α : Type) where
  | ok : α → PRes α
  | err : ParseError → PRes α
  | panic : PRes α
deriving DecidableEq, Repr

/-- Sequencing of decoder steps that thread the remaining input:
errors and panics propagate, as with Rust `?` plus unwinding. -/
def pbind {α β : Type} (x : PRes (α × List Nat)) (f : α → List Nat → PRes (β × List Nat)) :
    PRes (β × List Nat) :=
  match x with
  | .ok (a, rest) => f a rest
  | .err e => .err e
  | .panic => .panic

/-- `read_u8` in `lib.rs`: one byte or `IoError`. -/
def read_u8 (input : List Nat) : PRes (Nat × List Nat) :=
  match input with
  | b :: rest => .ok (b % 256, rest)
  | [] => .err .IoError

/-- `read_u16` in `lib.rs`: two bytes, little-endian, or `IoError`. -/
def read_u16 (input : List Nat) : PRes (Nat × List Nat) :=
  match input with
  | b0 :: b1 :: rest => .ok (b0 % 256 + 256 * (b1 % 256), rest)
  | _ => .err .IoError

/-- `read_u32` in `lib.rs`: four bytes, little-endian, or `IoError`. -/
def read_u32 (input : List Nat) : PRes (Nat × List Nat) :=
  match input with
  | b0 :: b1 :: b2 :: b3 :: rest =>
      .ok (b0 % 256 + 256 * (b1 % 256) + 65536 * (b2 % 256) + 16777216 * (b3 % 256), rest)
  | _ => .err .IoError

/-- `Read::read_exact` into a buffer of length `n`: the bytes read (reduced
mod 256, as they populate a `u8` buffer) or `IoError` when the input is too
short. -/
def read_exact (n : Nat) (input : List Nat) : PRes (List Nat × List Nat) :=
  if n ≤ input.length then .ok ((input.take n).map (· % 256), input.drop n)
  else .err .IoError

/-- `ResourceType` from `binaryxml.rs` (the duplicate in `lib.rs` omits
`NullType`; see `ResourceType.try_from` below). -/
inductive ResourceType where
  | NullType
  | StringPool
  | Table
  | Xml
  | XmlStartNameSpace
  | XmlEndNameSpace
  | XmlStartElement
  | XmlEndElement
  | XmlCdata
  | XmlLastChunk
  | XmlResourceMap
  | TablePackage
  | TableType
  | TableTypeSpec
  | TableLibrary
deriving DecidableEq, Repr

/-- `TryFrom<u16> for ResourceType` (`binaryxml.rs`).  The private copy in
`lib.rs` has `NullType` commented out, so there a `0x0000` tag fails already
here with `InvalidFile`; with this table it parses to `NullType` and the
dispatch loop then hits its catch-all `_ => Err(InvalidFile)`.  Both copies
therefore produce `InvalidFile` on a `0x0000` chunk, and the observable
behaviour of `parse` is unchanged by sharing this single table. -/
def ResourceType.try_from (v : Nat) : Option ResourceType :=
  if v = 0x000 then some .NullType
  else if v = 0x0001 then some .StringPool
  else if v = 0x0002 then some .Table
  else if v = 0x0003 then some .Xml
  else if v = 0x0100 then some .XmlStartNameSpace
  else if v = 0x101 then some .XmlEndNameSpace
  else if v = 0x0102 then some .XmlStartElement
  else if v = 0x0103 then some .XmlEndElement
  else if v = 0x0104 then some .XmlCdata
  else if v = 0x017f then some .XmlLastChunk
  else if v = 0x0180 then some .XmlResourceMap
  else if v = 0x0200 then some .TablePackage
  else if v = 0x0201 then some .TableType
  else if v = 0x0202 then some .TableTypeSpec
  else if v = 0x0203 then some .TableLibrary
  else none

/-- `ChunkHeader` (`binaryxml.rs` / `lib.rs`). -/
structure ChunkHeader where
  typ : ResourceType
  header_size : Nat
  size : Nat
deriving DecidableEq, Repr

/-- `ChunkHeader::read_from_file`: type tag (u16, must be a known
`ResourceType`, else `InvalidFile`), header size (u16), chunk size (u32). -/
def ChunkHeader.read_from_file (input : List Nat) : PRes (ChunkHeader × List Nat) :=
  pbind (read_u16 input) (fun t r1 =>
    match ResourceType.try_from t with
    | none => .err .InvalidFile
    | some typ =>
      pbind (read_u16 r1) (fun header_size r2 =>
        pbind (read_u32 r2) (fun size r3 =>
          .ok (⟨typ, header_size, size⟩, r3))))

/-- `ResourceValueType` from `resource_value.rs`. -/
inductive ResourceValueType where
  | Null
  | Reference
  | Attribute
  | String
  | Float
  | Dimension
  | Fraction
  | Dec
  | Hex
  | Boolean
  | ColorArgb8
  | ColorRgb8
  | ColorArgb4
  | ColorRgb4
deriving DecidableEq, Repr

/-- `TryFrom<u8> for ResourceValueType`: the fourteen enumerated bytes;
every other byte is an error (which `ResourceValue::read_from_file`
immediately `unwrap()`s into a panic). -/
def ResourceValueType.try_from (v : Nat) : Option ResourceValueType :=
  if v = 0x00 then some .Null
  else if v = 0x01 then some .Reference
  else if v = 0x02 then some .Attribute
  else if v = 0x03 then some .String
  else if v = 0x04 then some .Float
  else if v = 0x05 then some .Dimension
  else if v = 0x06 then some .Fraction
  else if v = 0x10 then some .Dec
  else if v = 0x11 then some .Hex
  else if v = 0x12 then some .Boolean
  else if v = 0x1c then some .ColorArgb8
  else if v = 0x1d then some .ColorRgb8
  else if v = 0x1e then some .ColorArgb4
  else if v = 0x1f then some .ColorRgb4
  else none

/-- The text `format!("{:?}", t)` produces for a `ResourceValueType`.
(Declared outside the `ResourceValueType` namespace because the
constructor `String` would otherwise shadow the string type.) -/
def debugName : ResourceValueType → String
  | .Null => "Null"
  | .Reference => "Reference"
  | .Attribute => "Attribute"
  | .String => "String"
  | .Float => "Float"
  | .Dimension => "Dimension"
  | .Fraction => "Fraction"
  | .Dec => "Dec"
  | .Hex => "Hex"
  | .Boolean => "Boolean"
  | .ColorArgb8 => "ColorArgb8"
  | .ColorRgb8 => "ColorRgb8"
  | .ColorArgb4 => "ColorArgb4"
  | .ColorRgb4 => "ColorRgb4"

/-- `ResourceValue` (`resource_value.rs`). -/
structure ResourceValue where
  size : Nat
  res : Nat
  data_type : ResourceValueType
  data : Nat
deriving DecidableEq, Repr

/-- `ResourceValue::read_from_file`: u16 size, u8 reserved, u8 type tag
(`try_from(...).unwrap()` — panics on an unknown tag), u32 data. -/
def ResourceValue.read_from_file (input : List Nat) : PRes (ResourceValue × List Nat) :=
  pbind (read_u16 input) (fun size r1 =>
    pbind (read_u8 r1) (fun res r2 =>
      pbind (read_u8 r2) (fun tb r3 =>
        match ResourceValueType.try_from tb with
        | none => .panic
        | some data_type =>
          pbind (read_u32 r3) (fun data r4 =>
            .ok (⟨size, res, data_type, data⟩, r4)))))

/-- `StringPoolHeader` (`stringpool.rs`). -/
structure StringPoolHeader where
  chunk_header : ChunkHeader
  string_count : Nat
  style_count : Nat
  flags : Nat
  string_start : Nat
  style_start : Nat
deriving DecidableEq, Repr

/-- `StringPoolHeader::read_from_file`: five u32 fields after the chunk
header. -/
def StringPoolHeader.read_from_file (chunk_header : ChunkHeader) (input : List Nat) :
    PRes (StringPoolHeader × List Nat) :=
  pbind (read_u32 input) (fun string_count r1 =>
    pbind (read_u32 r1) (fun style_count r2 =>
      pbind (read_u32 r2) (fun flags r3 =>
        pbind (read_u32 r3) (fun string_start r4 =>
          pbind (read_u32 r4) (fun style_start r5 =>
            .ok (⟨chunk_header, string_count, style_count, flags, string_start, style_start⟩,
              r5))))))

/-- `StringPool` (`stringpool.rs`): decoded header plus the interned
strings (`Vec<Rc<String>>`, modelled as `List String`). -/
structure StringPool where
  header : StringPoolHeader
  strings : List String
deriving DecidableEq, Repr

/-- `StringPool::get`.  Index `0xFFFFFFFF` is the "absent" sentinel; any
other index is looked up with `Vec::get`, whose out-of-bounds `None` is
propagated unchanged by the `?` operator — out of bounds is therefore also
`none`, not an error.  (The `u32::try_from(i).unwrap()` cannot fail for the
u32-derived indices every caller passes.) -/
def StringPool.get (p : StringPool) (i : Nat) : Option String :=
  if i = 4294967295 then none
  else p.strings.get? i

/-- Reading `string_data[index..index+4]` as a little-endian u32
(`parse_offsets` body); `none` models the slice-index panic when fewer than
four bytes remain. -/
def slice_u32 (data : List Nat) (index : Nat) : Option Nat :=
  match data.get? index, data.get? (index + 1), data.get? (index + 2), data.get? (index + 3) with
  | some b0, some b1, some b2, some b3 =>
      some (b0 % 256 + 256 * (b1 % 256) + 65536 * (b2 % 256) + 16777216 * (b3 % 256))
  | _, _, _, _ => none

/-- Reading `string_data[offset..offset+2]` as a little-endian u16;
`none` models the slice-index panic. -/
def slice_u16 (data : List Nat) (index : Nat) : Option Nat :=
  match data.get? index, data.get? (index + 1) with
  | some b0, some b1 => some (b0 % 256 + 256 * (b1 % 256))
  | _, _ => none

/-- `parse_offsets` (`stringpool.rs`): `count` little-endian u32 offsets
read from the front of the chunk payload; `none` models the slice panic on
a too-short payload. -/
def parse_offsets (string_data : List Nat) (count : Nat) : Option (List Nat) :=
  (List.range count).mapM (fun i => slice_u32 string_data (i * 4))

/-- UTF-16 decoding as `String::from_utf16` does it: basic-plane units are
taken directly, high surrogates must be followed by a low surrogate, and
any unpaired surrogate is an error (`none`). -/
def decode_utf16 : List Nat → Option (List Char)
  | [] => some []
  | u :: rest =>
    if u < 0xD800 ∨ 0xE000 ≤ u then
      (decode_utf16 rest).map (fun cs => Char.ofNat u :: cs)
    else if u < 0xDC00 then
      match rest with
      | v :: rest2 =>
        if 0xDC00 ≤ v ∧ v < 0xE000 then
          (decode_utf16 rest2).map (fun cs =>
            Char.ofNat (0x10000 + (u - 0xD800) * 1024 + (v - 0xDC00)) :: cs)
        else none
      | [] => none
    else none

/-- UTF-8 decoding as `String::from_utf8` does it: rejects stray
continuation bytes, overlong encodings, surrogate code points and values
above `0x10FFFF` (`none` on any invalid sequence). -/
def decode_utf8 : List Nat → Option (List Char)
  | [] => some []
  | b :: rest =>
    if b < 0x80 then (decode_utf8 rest).map (fun cs => Char.ofNat b :: cs)
    else if b < 0xC2 then none
    else if b < 0xE0 then
      match rest with
      | c1 :: rest2 =>
        if 0x80 ≤ c1 ∧ c1 < 0xC0 then
          (decode_utf8 rest2).map (fun cs => Char.ofNat ((b - 0xC0) * 64 + (c1 - 0x80)) :: cs)
        else none
      | [] => none
    else if b < 0xF0 then
      match rest with
      | c1 :: c2 :: rest2 =>
        if (0x80 ≤ c1 ∧ c1 < 0xC0) ∧ (0x80 ≤ c2 ∧ c2 < 0xC0) ∧
            (b ≠ 0xE0 ∨ 0xA0 ≤ c1) ∧ (b ≠ 0xED ∨ c1 < 0xA0) then
          (decode_utf8 rest2).map (fun cs =>
            Char.ofNat ((b - 0xE0) * 4096 + (c1 - 0x80) * 64 + (c2 - 0x80)) :: cs)
        else none
      | _ => none
    else if b < 0xF5 then
      match rest with
      | c1 :: c2 :: c3 :: rest2 =>
        if (0x80 ≤ c1 ∧ c1 < 0xC0) ∧ (0x80 ≤ c2 ∧ c2 < 0xC0) ∧ (0x80 ≤ c3 ∧ c3 < 0xC0) ∧
            (b ≠ 0xF0 ∨ 0x90 ≤ c1) ∧ (b ≠ 0xF4 ∨ c1 < 0x90) then
          (decode_utf8 rest2).map (fun cs =>
            Char.ofNat ((b - 0xF0) * 262144 + (c1 - 0x80) * 4096 + (c2 - 0x80) * 64 +
              (c3 - 0x80)) :: cs)
        else none
      | _ => none
    else none

/-- `parse_utf16_string` (`stringpool.rs`): u16 length at `offset` (panic
if the slice is short), `unimplemented!()` panic when the high bit is set,
then `len` u16 code units from `offset + 2` (panic on a short slice),
decoded with `String::from_utf16` (`Utf16StringParseError` on failure). -/
def parse_utf16_string (string_data : List Nat) (offset : Nat) : PRes String :=
  match slice_u16 string_data offset with
  | none => .panic
  | some len =>
    if len &&& (1 <<< 15) ≠ 0 then .panic
    else
      match (List.range len).mapM (fun i => slice_u16 string_data (offset + 2 + i * 2)) with
      | none => .panic
      | some units =>
        match decode_utf16 units with
        | none => .err .Utf16StringParseError
        | some cs => .ok (String.mk cs)

/-- `parse_utf8_string` (`stringpool.rs`): the length is the second byte at
the offset (the first, 16-bit-length byte is skipped; indexing panics if
out of range), `unimplemented!()` panic when its high bit is set, then
`len` bytes from `offset + 2` (panic if out of range), decoded with
`String::from_utf8` (`Utf8StringParseError` on failure). -/
def parse_utf8_string (string_data : List Nat) (offset : Nat) : PRes String :=
  match string_data.get? (offset + 1) with
  | none => .panic
  | some len0 =>
    let len := len0 % 256
    if len &&& (1 <<< 7) ≠ 0 then .panic
    else
      match (List.range len).mapM (fun i => string_data.get? (offset + 2 + i)) with
      | none => .panic
      | some bs =>
        match decode_utf8 (bs.map (· % 256)) with
        | none => .err .Utf8StringParseError
        | some cs => .ok (String.mk cs)

/-- The per-offset loop at the end of `StringPool::read_from_file`,
applying the selected `parse_fn` to every offset. -/
def parse_strings (is_utf8 : Bool) (string_data : List Nat) : List Nat → PRes (List String)
  | [] => .ok []
  | offset :: rest =>
    match (if is_utf8 then parse_utf8_string string_data offset
           else parse_utf16_string string_data offset) with
    | .ok s =>
      match parse_strings is_utf8 string_data rest with
      | .ok ss => .ok (s :: ss)
      | .err e => .err e
      | .panic => .panic
    | .err e => .err e
    | .panic => .panic

/-- The in-memory part of `StringPool::read_from_file`, operating on the
chunk payload after it has been read: offsets are parsed from the front
of the buffer (`none` from `parse_offsets` models the slice panic); the
string data starts at `string_start - 28` (`usize` underflow and slicing
past the end both panic); each offset is decoded with the encoding
selected by bit 8 of `flags`. -/
def decode_pool_strings (hdr : StringPoolHeader) (string_pool_data : List Nat) :
    PRes (List String) :=
  match parse_offsets string_pool_data hdr.string_count with
  | none => .panic
  | some offsets =>
    if hdr.string_start < 28 then .panic
    else if string_pool_data.length < hdr.string_start - 28 then .panic
    else
      parse_strings ((hdr.flags &&& (1 <<< 8)) != 0)
        (string_pool_data.drop (hdr.string_start - 28)) offsets

/-- `StringPool::read_from_file`.  After the header: `assert_eq!`
(panic) unless `style_count == 0`; the remaining `size - 28` bytes of the
chunk are read in one `read_exact` (`28 = size_of::<StringPoolHeader>()`;
the `usize` subtraction panics when `size < 28`); the payload is then
decoded in memory by `decode_pool_strings`. -/
def StringPool.read_from_file (chunk_header : ChunkHeader) (input : List Nat) :
    PRes (StringPool × List Nat) :=
  pbind (StringPoolHeader.read_from_file chunk_header input) (fun hdr r1 =>
    if hdr.style_count ≠ 0 then .panic
    else if hdr.chunk_header.size < 28 then .panic
    else
      pbind (read_exact (hdr.chunk_header.size - 28) r1) (fun string_pool_data r2 =>
        match decode_pool_strings hdr string_pool_data with
        | .ok strings => .ok (⟨hdr, strings⟩, r2)
        | .err e => .err e
        | .panic => .panic))

/-- `parse_resource_map` (`lib.rs` / `binaryxml.rs`): reads
`(size - header_size) / 4` u32 resource ids.  The u32 subtraction is
modelled with release-mode wrapping semantics (a debug build would panic
when `size < header_size`; no claim depends on that corner). -/
def read_u32_list : Nat → List Nat → PRes (List Nat × List Nat)
  | 0, input => .ok ([], input)
  | n + 1, input =>
    pbind (read_u32 input) (fun v rest =>
      pbind (read_u32_list n rest) (fun vs rest2 =>
        .ok (v :: vs, rest2)))

/-- See `read_u32_list`; this is `parse_resource_map` itself. -/
def parse_resource_map (header : ChunkHeader) (input : List Nat) :
    PRes (List Nat × List Nat) :=
  read_u32_list (((header.size + 4294967296 - header.header_size % 4294967296) % 4294967296) / 4)
    input

/-- `XmlNodeHeader` (`binaryxml.rs`). -/
structure XmlNodeHeader where
  chunk_header : ChunkHeader
  line_no : Nat
  comment : Nat
deriving DecidableEq, Repr

/-- `XmlNodeHeader::read_from_file`: clones the chunk header and reads
u32 line number and u32 comment reference. -/
def XmlNodeHeader.read_from_file (chunk_header : ChunkHeader) (input : List Nat) :
    PRes (XmlNodeHeader × List Nat) :=
  pbind (read_u32 input) (fun line_no r1 =>
    pbind (read_u32 r1) (fun comment r2 =>
      .ok (⟨chunk_header, line_no, comment⟩, r2)))

/-- `XmlStartNameSpace` (`binaryxml.rs`); the source field `prefix` is a
Lean keyword and is rendered `prefixRef`. -/
structure XmlStartNameSpace where
  header : XmlNodeHeader
  prefixRef : Nat
  uri : Nat
deriving DecidableEq, Repr

/-- `XmlStartNameSpace::read_from_file`. -/
def XmlStartNameSpace.read_from_file (chunk_header : ChunkHeader) (input : List Nat) :
    PRes (XmlStartNameSpace × List Nat) :=
  pbind (XmlNodeHeader.read_from_file chunk_header input) (fun header r1 =>
    pbind (read_u32 r1) (fun prefixRef r2 =>
      pbind (read_u32 r2) (fun uri r3 =>
        .ok (⟨header, prefixRef, uri⟩, r3))))

/-- `XmlEndNameSpace` (`binaryxml.rs`). -/
structure XmlEndNameSpace where
  header : XmlNodeHeader
  prefixRef : Nat
  uri : Nat
deriving DecidableEq, Repr

/-- `XmlEndNameSpace::read_from_file`. -/
def XmlEndNameSpace.read_from_file (chunk_header : ChunkHeader) (input : List Nat) :
    PRes (XmlEndNameSpace × List Nat) :=
  pbind (XmlNodeHeader.read_from_file chunk_header input) (fun header r1 =>
    pbind (read_u32 r1) (fun prefixRef r2 =>
      pbind (read_u32 r2) (fun uri r3 =>
        .ok (⟨header, prefixRef, uri⟩, r3))))

/-- `XmlAttrExt` (`binaryxml.rs`). -/
structure XmlAttrExt where
  ns : Nat
  name : Nat
  attribute_start : Nat
  attribute_size : Nat
  attribute_count : Nat
  id_index : Nat
  class_index : Nat
  style_index : Nat
deriving DecidableEq, Repr

/-- `XmlAttrExt::read_from_file`: two u32 references then six u16 fields. -/
def XmlAttrExt.read_from_file (input : List Nat) : PRes (XmlAttrExt × List Nat) :=
  pbind (read_u32 input) (fun ns r1 =>
    pbind (read_u32 r1) (fun name r2 =>
      pbind (read_u16 r2) (fun attribute_start r3 =>
        pbind (read_u16 r3) (fun attribute_size r4 =>
          pbind (read_u16 r4) (fun attribute_count r5 =>
            pbind (read_u16 r5) (fun id_index r6 =>
              pbind (read_u16 r6) (fun class_index r7 =>
                pbind (read_u16 r7) (fun style_index r8 =>
                  .ok (⟨ns, name, attribute_start, attribute_size, attribute_count,
                    id_index, class_index, style_index⟩, r8)))))))))

/-- `XmlAttribute` (`binaryxml.rs`): the raw-value reference is read and
discarded by the source, so it has no field here either. -/
structure XmlAttribute where
  ns : Nat
  name : Nat
  typed_value : ResourceValue
deriving DecidableEq, Repr

/-- `XmlAttribute::read_from_file`: u32 ns, u32 name, a skipped u32 raw
value, then the typed `ResourceValue`. -/
def XmlAttribute.read_from_file (input : List Nat) : PRes (XmlAttribute × List Nat) :=
  pbind (read_u32 input) (fun ns r1 =>
    pbind (read_u32 r1) (fun name r2 =>
      pbind (read_u32 r2) (fun _raw r3 =>
        pbind (ResourceValue.read_from_file r3) (fun typed_value r4 =>
          .ok (⟨ns, name, typed_value⟩, r4)))))

/-- The attribute loop of `XmlStartElement::read_from_file`. -/
def read_attributes : Nat → List Nat → PRes (List XmlAttribute × List Nat)
  | 0, input => .ok ([], input)
  | n + 1, input =>
    pbind (XmlAttribute.read_from_file input) (fun a rest =>
      pbind (read_attributes n rest) (fun as rest2 =>
        .ok (a :: as, rest2)))

/-- `XmlStartElement` (`binaryxml.rs`). -/
structure XmlStartElement where
  header : XmlNodeHeader
  attr_ext : XmlAttrExt
  attributes : List XmlAttribute
deriving DecidableEq, Repr

/-- `XmlStartElement::read_from_file`: node header, attribute-extension
record, then `attribute_count` attributes. -/
def XmlStartElement.read_from_file (chunk_header : ChunkHeader) (input : List Nat) :
    PRes (XmlStartElement × List Nat) :=
  pbind (XmlNodeHeader.read_from_file chunk_header input) (fun header r1 =>
    pbind (XmlAttrExt.read_from_file r1) (fun attr_ext r2 =>
      pbind (read_attributes attr_ext.attribute_count r2) (fun attributes r3 =>
        .ok (⟨header, attr_ext, attributes⟩, r3))))

/-- `XmlEndElement` (`binaryxml.rs`). -/
structure XmlEndElement where
  header : XmlNodeHeader
  ns : Nat
  name : Nat
deriving DecidableEq, Repr

/-- `XmlEndElement::read_from_file`: node header then u32 ns and u32 name. -/
def XmlEndElement.read_from_file (chunk_header : ChunkHeader) (input : List Nat) :
    PRes (XmlEndElement × List Nat) :=
  pbind (XmlNodeHeader.read_from_file chunk_header input) (fun header r1 =>
    pbind (read_u32 r1) (fun ns r2 =>
      pbind (read_u32 r2) (fun name r3 =>
        .ok (⟨header, ns, name⟩, r3))))

/-- `XmlCdata` (`binaryxml.rs`). -/
structure XmlCdata where
  header : XmlNodeHeader
  data : Nat
  typed_data : ResourceValue
deriving DecidableEq, Repr

/-- `XmlCdata::read_from_file`: node header, u32 data reference, typed
value. -/
def XmlCdata.read_from_file (chunk_header : ChunkHeader) (input : List Nat) :
    PRes (XmlCdata × List Nat) :=
  pbind (XmlNodeHeader.read_from_file chunk_header input) (fun header r1 =>
    pbind (read_u32 r1) (fun data r2 =>
      pbind (ResourceValue.read_from_file r2) (fun typed_data r3 =>
        .ok (⟨header, data, typed_data⟩, r3))))

/-- `XmlElement` (`binaryxml.rs`): the five node-chunk kinds. -/
inductive XmlElement where
  | xmlStartNameSpace : XmlStartNameSpace → XmlElement
  | xmlEndNameSpace : XmlEndNameSpace → XmlElement
  | xmlStartElement : XmlStartElement → XmlElement
  | xmlEndElement : XmlEndElement → XmlElement
  | xmlCdata : XmlCdata → XmlElement
deriving DecidableEq, Repr

/-- `Cdata` output node (`xml.rs`). -/
structure Cdata where
  data : String
deriving DecidableEq, Repr

mutual

/-- Output tree (`xml.rs`): a `Node` is either an `Element` or a `Cdata`. -/
inductive Node where
  | element : Element → Node
  | cdata : Cdata → Node

/-- An `Element` (`xml.rs`) holds its attribute map
(`HashMap<String, String>`, modelled as an association list), its tag and
its children in order. -/
inductive Element where
  | mk : List (String × String) → String → List Node → Element

end

/-- Attribute map of an `Element` (`attributes` field in `xml.rs`). -/
def Element.attributes : Element → List (String × String)
  | .mk a _ _ => a

/-- Tag of an `Element` (`tag` field in `xml.rs`). -/
def Element.tag : Element → String
  | .mk _ t _ => t

/-- Children of an `Element` (`children` field in `xml.rs`). -/
def Element.children : Element → List Node
  | .mk _ _ c => c

/-- `Element::insert_children`: pushes a node at the end of the child
list, preserving encounter order. -/
def Element.insert_children : Element → Node → Element
  | .mk a t c, child => .mk a t (c ++ [child])

/-- `HashMap::insert` with string keys, observed through lookups: the new
binding wins over any previous binding of the same key. -/
def hashmap_insert (m : List (String × String)) (k v : String) : List (String × String) :=
  (k, v) :: m.filter (fun p => p.1 ≠ k)

/-- `HashMap::get` with string keys. -/
def hashmap_get (m : List (String × String)) (k : String) : Option String :=
  (m.find? (fun p => p.1 == k)).map (·.2)

/-- `ResourceValue::get_value` (`resource_value.rs`).  `none` models the
panic of the `unwrap()` in the `String` arm when the pool lookup is
absent.  `Hex` deliberately prints the *decimal* digits of `data` after a
literal `"0x"`, exactly as `format!("0x{}", self.data)` does. -/
def ResourceValue.get_value (v : ResourceValue) (string_pool : StringPool) : Option String :=
  match v.data_type with
  | .String => string_pool.get v.data
  | .Dec => some (toString v.data)
  | .Hex => some ("0x" ++ toString v.data)
  | .Boolean => some (match v.data with
      | 0 => "false"
      | _ => "true")
  | n => some ("ResourceValueType::" ++ debugName n ++ "/" ++ toString v.data)

/-- `XmlDocument::process_cdata`: pool lookup of the data reference,
`unwrap()` (panic, modelled `none`) when absent. -/
def process_cdata (e : XmlCdata) (string_pool : StringPool) : Option Cdata :=
  (string_pool.get e.data).map Cdata.mk

/-- `XmlDocument::process_start_namespace`: pool lookups of uri and
prefix, each `unwrap()`ed (panic when absent). -/
def process_start_namespace (e : XmlStartNameSpace) (string_pool : StringPool) :
    Option (String × String) :=
  match string_pool.get e.uri, string_pool.get e.prefixRef with
  | some uri, some p => some (uri, p)
  | _, _ => none

/-- Body of the attribute loop in `XmlDocument::process_start_element`:
resolves one attribute to its final key and value.  The name lookup and
the value resolution are `unwrap()`ed (panic when absent); when the `ns`
reference resolves to a URI, the prefix is fetched from the namespace
table with `namespaces.get(&n).unwrap()` — a panic (`none`) when that URI
was never registered; otherwise the key is the bare name. -/
def resolve_attribute (string_pool : StringPool) (namespaces : List (String × String))
    (attr : XmlAttribute) : Option (String × String) :=
  match string_pool.get attr.name with
  | none => none
  | some name =>
    match attr.typed_value.get_value string_pool with
    | none => none
    | some value =>
      match string_pool.get attr.ns with
      | some n =>
        match hashmap_get namespaces n with
        | some nsp => some (nsp ++ ":" ++ name, value)
        | none => none
      | none => some (name, value)

/-- The attribute loop of `XmlDocument::process_start_element`, folding
`resolve_attribute` results into the element's attribute map. -/
def resolve_attributes (string_pool : StringPool) (namespaces : List (String × String)) :
    List XmlAttribute → List (String × String) → Option (List (String × String))
  | [], acc => some acc
  | attr :: rest, acc =>
    match resolve_attribute string_pool namespaces attr with
    | some (k, v) => resolve_attributes string_pool namespaces rest (hashmap_insert acc k v)
    | none => none

/-- `XmlDocument::process_start_element`.  The element's own `ns`
reference must be absent (`assert_eq!(ns, None)` panics otherwise —
namespaced element tags are unsupported); the tag is the `unwrap()`ed
pool lookup of `attr_ext.name`; the attributes are folded into the map;
a fresh childless element is produced. -/
def process_start_element (e : XmlStartElement) (string_pool : StringPool)
    (namespaces : List (String × String)) : Option Element :=
  match string_pool.get e.attr_ext.ns with
  | some _ => none
  | none =>
    match string_pool.get e.attr_ext.name with
    | none => none
    | some name =>
      match resolve_attributes string_pool namespaces e.attributes [] with
      | none => none
      | some attributes => some (Element.mk attributes name [])

/-- `XmlDocument` (`xml.rs`): the root node, if one was produced. -/
structure XmlDocument where
  root : Option Node

/-- The event loop of `XmlDocument::new`, with the namespace table and
the element stack (`element_tracker`, top at the head) made explicit.

* StartNamespace: resolve uri/prefix and insert `uri → prefix`.
* EndNamespace: ignored.
* StartElement: push the processed element.
* EndElement: pop (`unwrap()` panics on an empty stack); if the stack is
  now empty the popped element is returned as the root, ignoring every
  remaining event, otherwise it is appended to the children of the new
  top.
* CData: processed and appended to the children of the top
  (`last_mut().unwrap()` panics on an empty stack).
* When the events are exhausted, a document with an absent root is
  returned. -/
def new_loop (string_pool : StringPool) :
    List XmlElement → List (String × String) → List Element → Option XmlDocument
  | [], _, _ => some ⟨none⟩
  | .xmlStartNameSpace e :: rest, namespaces, stack =>
    match process_start_namespace e string_pool with
    | some (uri, p) => new_loop string_pool rest (hashmap_insert namespaces uri p) stack
    | none => none
  | .xmlEndNameSpace _ :: rest, namespaces, stack =>
    new_loop string_pool rest namespaces stack
  | .xmlStartElement e :: rest, namespaces, stack =>
    match process_start_element e string_pool namespaces with
    | some el => new_loop string_pool rest namespaces (el :: stack)
    | none => none
  | .xmlEndElement _ :: rest, namespaces, stack =>
    match stack with
    | [] => none
    | e :: [] => some ⟨some (Node.element e)⟩
    | e :: top :: stack2 =>
      new_loop string_pool rest namespaces (top.insert_children (Node.element e) :: stack2)
  | .xmlCdata e :: rest, namespaces, stack =>
    match process_cdata e string_pool, stack with
    | some cdata, top :: stack2 =>
      new_loop string_pool rest namespaces (top.insert_children (Node.cdata cdata) :: stack2)
    | _, _ => none

/-- `XmlDocument::new` (`xml.rs`): runs the event loop with an empty
namespace table and an empty element stack.  The resource map parameter
is received but never read (`_resource_map` in the source). -/
def XmlDocument.new (elements : List XmlElement) (string_pool : StringPool)
    (_resource_map : List Nat) : Option XmlDocument :=
  new_loop string_pool elements [] []

/-- `XmlDocument::get_root`. -/
def XmlDocument.get_root (d : XmlDocument) : Option Node :=
  d.root

/-- The outer chunk-scan loop shared by `parse` (`lib.rs`) and
`BinaryXmlDocument::read_from_file` (`binaryxml.rs`), whose bodies are
textually identical.  Per iteration: read a chunk header; if that read
fails with `IoError` (input exhausted, at a header boundary or in the
middle of a header field alike) the loop breaks and the accumulated
state is returned; any other header error (`InvalidFile` from an unknown
type tag) propagates; otherwise dispatch on the chunk type, remembering
the latest string pool and resource map and appending node chunks to the
element list, with unlisted types rejected as `InvalidFile`.

The `fuel` argument makes the recursion structural; every iteration that
recurses consumes at least the eight header bytes, so any fuel exceeding
the input length is enough (`scan_chunks_fuel_sufficient` below), and the
entry point `scan_chunks` supplies `input.length + 1`.  The fuel-exhausted
branch is unreachable from `scan_chunks`. -/
def scan_chunks_fuel :
    Nat → List XmlElement → Option StringPool → Option (List Nat) → List Nat →
      PRes (List XmlElement × Option StringPool × Option (List Nat))
  | 0, _, _, _, _ => .panic
  | fuel + 1, elements, string_pool, resource_map, input =>
    match ChunkHeader.read_from_file input with
    | .err .IoError => .ok (elements, string_pool, resource_map)
    | .err e => .err e
    | .panic => .panic
    | .ok (header, rest) =>
      match header.typ with
      | .StringPool =>
        match StringPool.read_from_file header rest with
        | .ok (p, rest2) => scan_chunks_fuel fuel elements (some p) resource_map rest2
        | .err e => .err e
        | .panic => .panic
      | .XmlResourceMap =>
        match parse_resource_map header rest with
        | .ok (ids, rest2) => scan_chunks_fuel fuel elements string_pool (some ids) rest2
        | .err e => .err e
        | .panic => .panic
      | .XmlStartNameSpace =>
        match XmlStartNameSpace.read_from_file header rest with
        | .ok (e, rest2) =>
          scan_chunks_fuel fuel (elements ++ [.xmlStartNameSpace e]) string_pool resource_map
            rest2
        | .err e => .err e
        | .panic => .panic
      | .XmlEndNameSpace =>
        match XmlEndNameSpace.read_from_file header rest with
        | .ok (e, rest2) =>
          scan_chunks_fuel fuel (elements ++ [.xmlEndNameSpace e]) string_pool resource_map
            rest2
        | .err e => .err e
        | .panic => .panic
      | .XmlStartElement =>
        match XmlStartElement.read_from_file header rest with
        | .ok (e, rest2) =>
          scan_chunks_fuel fuel (elements ++ [.xmlStartElement e]) string_pool resource_map
            rest2
        | .err e => .err e
        | .panic => .panic
      | .XmlEndElement =>
        match XmlEndElement.read_from_file header rest with
        | .ok (e, rest2) =>
          scan_chunks_fuel fuel (elements ++ [.xmlEndElement e]) string_pool resource_map
            rest2
        | .err e => .err e
        | .panic => .panic
      | .XmlCdata =>
        match XmlCdata.read_from_file header rest with
        | .ok (e, rest2) =>
          scan_chunks_fuel fuel (elements ++ [.xmlCdata e]) string_pool resource_map rest2
        | .err e => .err e
        | .panic => .panic
      | _ => .err .InvalidFile

/-- The chunk-scan loop at its canonical (always sufficient) fuel. -/
def scan_chunks (elements : List XmlElement) (string_pool : Option StringPool)
    (resource_map : Option (List Nat)) (input : List Nat) :
    PRes (List XmlElement × Option StringPool × Option (List Nat)) :=
  scan_chunks_fuel (input.length + 1) elements string_pool resource_map input

/-- The code after the scan loop in `parse` (`lib.rs`):
`string_pool.unwrap()` and `resource_map.unwrap()` — a panic when either
chunk was never seen — then `XmlDocument::new` (whose own panics also
abort `parse`). -/
def parse_finish (elements : List XmlElement) (string_pool : Option StringPool)
    (resource_map : Option (List Nat)) : PRes XmlDocument :=
  match string_pool, resource_map with
  | some p, some r =>
    match XmlDocument.new elements p r with
    | some d => .ok d
    | none => .panic
  | _, _ => .panic

/-- `parse` after the top-level `Xml` header has been read and checked. -/
def parse_body (input : List Nat) : PRes XmlDocument :=
  match scan_chunks [] none none input with
  | .ok (elements, string_pool, resource_map) => parse_finish elements string_pool resource_map
  | .err e => .err e
  | .panic => .panic

/-- `parse` (`lib.rs`): read the top-level chunk header (errors
propagate), require its type to be `Xml` (`InvalidFile` otherwise), scan
the chunks, then finish. -/
def parse (input : List Nat) : PRes XmlDocument :=
  match ChunkHeader.read_from_file input with
  | .ok (header, rest) =>
    if header.typ = ResourceType.Xml then parse_body rest else .err .InvalidFile
  | .err e => .err e
  | .panic => .panic

/-- `BinaryXmlDocument` (`binaryxml.rs`). -/
structure BinaryXmlDocument where
  elements : List XmlElement
  string_pool : StringPool
  resource_map : List Nat
deriving DecidableEq, Repr

/-- The code after the scan loop in `BinaryXmlDocument::read_from_file`:
`string_pool.ok_or(MissingStringPoolChunk)?` then
`resource_map.ok_or(MissingResourceMapChunk)?` — genuine errors, in that
order, instead of the `unwrap()` panics of `parse`. -/
def bxml_finish (elements : List XmlElement) (string_pool : Option StringPool)
    (resource_map : Option (List Nat)) : PRes BinaryXmlDocument :=
  match string_pool with
  | none => .err .MissingStringPoolChunk
  | some p =>
    match resource_map with
    | none => .err .MissingResourceMapChunk
    | some r => .ok ⟨elements, p, r⟩

/-- `BinaryXmlDocument::read_from_file` after the top-level header. -/
def bxml_body (input : List Nat) : PRes BinaryXmlDocument :=
  match scan_chunks [] none none input with
  | .ok (elements, string_pool, resource_map) => bxml_finish elements string_pool resource_map
  | .err e => .err e
  | .panic => .panic

/-- `BinaryXmlDocument::read_from_file` (`binaryxml.rs`): identical to
`parse` except for the post-loop handling of missing chunks. -/
def BinaryXmlDocument.read_from_file (input : List Nat) : PRes BinaryXmlDocument :=
  match ChunkHeader.read_from_file input with
  | .ok (header, rest) =>
    if header.typ = ResourceType.Xml then bxml_body rest else .err .InvalidFile
  | .err e => .err e
  | .panic => .panic

/-- Replaces the `ns` and `name` references of an `XmlEndElement` event
with `0`, leaving every other event untouched.  Two event lists with
equal images under this map differ at most in the `ns`/`name` fields of
their EndElement events. -/
def erase_end_refs : XmlElement → XmlElement
  | .xmlEndElement e => .xmlEndElement ⟨e.header, 0, 0⟩
  | e => e

/-! Concrete values used to evaluate the decoder on small inputs. -/

/-- A hand-built string-pool header for the concrete pools below. -/
def exampleHeader : StringPoolHeader :=
  ⟨⟨.StringPool, 28, 28⟩, 0, 0, 0, 28, 0⟩

/-- A pool holding the single string `"a"`. -/
def c1Pool : StringPool := ⟨exampleHeader, ["a"]⟩

/-- A pool holding the single string `"manifest"`. -/
def c2Pool : StringPool := ⟨exampleHeader, ["manifest"]⟩

/-- A node header for hand-built start elements. -/
def exampleNodeHeader : XmlNodeHeader :=
  ⟨⟨.XmlStartElement, 16, 36⟩, 1, 4294967295⟩

/-- A StartElement event: no element namespace (sentinel), tag reference
`0`, no attributes. -/
def c2Start : XmlStartElement :=
  ⟨exampleNodeHeader, ⟨4294967295, 0, 20, 20, 0, 0, 0, 0⟩, []⟩

/-- The byte image of a minimal StringPool chunk (type `0x0001`, header
size 28, total size 28, zero strings and styles, string data starting at
offset 28), as it appears after the top-level header. -/
def c4Input : List Nat :=
  [1, 0, 28, 0, 28, 0, 0, 0,
   0, 0, 0, 0, 0, 0, 0, 0, 0, 0, 0, 0, 28, 0, 0, 0, 0, 0, 0, 0]

/-- The empty pool decoded from `c4Input`. -/
def c4Pool : StringPool := ⟨exampleHeader, []⟩

/-- A pool holding a namespace URI `"u"` and an attribute name `"n"`. -/
def c6Pool : StringPool := ⟨exampleHeader, ["u", "n"]⟩

/-- An attribute whose `ns` reference resolves to the URI `"u"` and whose
name resolves to `"n"`, with a decimal value. -/
def c6Attr : XmlAttribute := ⟨0, 1, ⟨8, 0, .Dec, 7⟩⟩

/-- A StartElement event carrying `c6Attr`. -/
def c6Start : XmlStartElement :=
  ⟨exampleNodeHeader, ⟨4294967295, 1, 20, 20, 1, 0, 0, 0⟩, [c6Attr]⟩

/-- A pool with the Android namespace URI and two attribute names. -/
def c6PoolA : StringPool :=
  ⟨exampleHeader, ["http://schemas.android.com/apk/res/android", "versionCode", "debuggable"]⟩

/-- A namespace table registering the Android URI with prefix
`"android"`. -/
def c6NsTable : List (String × String) :=
  [("http://schemas.android.com/apk/res/android", "android")]

/-- Attribute `versionCode` in the Android namespace with value `42`. -/
def c6AttrA : XmlAttribute := ⟨0, 1, ⟨8, 0, .Dec, 42⟩⟩

/-- Attribute `debuggable` with no namespace and boolean value `true`. -/
def c6AttrB : XmlAttribute := ⟨4294967295, 2, ⟨8, 0, .Boolean, 1⟩⟩

/-- A node header for hand-built end elements. -/
def exampleEndHeader : XmlNodeHeader :=
  ⟨⟨.XmlEndElement, 16, 24⟩, 2, 4294967295⟩

/-- An EndElement event with one pair of `ns`/`name` references. -/
def c9End1 : XmlEndElement := ⟨exampleEndHeader, 5, 7⟩

/-- The same EndElement event with different `ns`/`name` references. -/
def c9End2 : XmlEndElement := ⟨exampleEndHeader, 1, 2⟩

/-! Helper lemmas.  The `*_length` lemmas certify that every reader
consumes input monotonically; together they show the canonical fuel of
`scan_chunks` can never run out (`scan_chunks_fuel_sufficient`). -/

theorem pbind_ok {α β : Type} {x : PRes (α × List Nat)}
    {f : α → List Nat → PRes (β × List Nat)} {b : β} {r : List Nat}
    (h : pbind x f = .ok (b, r)) :
    ∃ a rest, x = .ok (a, rest) ∧ f a rest = .ok (b, r) := by
  cases x with
  | ok p => exact ⟨p.1, p.2, rfl, h⟩
  | err e => simp [pbind] at h
  | panic => simp [pbind] at h

theorem read_u8_length {l r : List Nat} {v : Nat} (h : read_u8 l = .ok (v, r)) :
    r.length + 1 = l.length := by
  cases l with
  | nil => simp [read_u8] at h
  | cons b rest => simp_all [read_u8]

theorem read_u16_length {l r : List Nat} {v : Nat} (h : read_u16 l = .ok (v, r)) :
    r.length + 2 = l.length := by
  rcases l with _ | ⟨b0, _ | ⟨b1, rest⟩⟩ <;> simp_all [read_u16]

theorem read_u32_length {l r : List Nat} {v : Nat} (h : read_u32 l = .ok (v, r)) :
    r.length + 4 = l.length := by
  rcases l with _ | ⟨b0, _ | ⟨b1, _ | ⟨b2, _ | ⟨b3, rest⟩⟩⟩⟩ <;> simp_all [read_u32]

theorem read_exact_length {n : Nat} {l d r : List Nat} (h : read_exact n l = .ok (d, r)) :
    r.length ≤ l.length := by
  unfold read_exact at h
  split at h
  · obtain ⟨h1, h2⟩ := by simpa using h
    rw [← h2]
    simp
  · simp at h

theorem chunk_header_length {l : List Nat} {c : ChunkHeader} {r : List Nat}
    (h : ChunkHeader.read_from_file l = .ok (c, r)) : r.length + 8 = l.length := by
  unfold ChunkHeader.read_from_file at h
  obtain ⟨t, r1, h1, h⟩ := pbind_ok h
  cases htf : ResourceType.try_from t with
  | none => rw [htf] at h; simp at h
  | some typ =>
    rw [htf] at h
    obtain ⟨hs, r2, h2, h⟩ := pbind_ok h
    obtain ⟨sz, r3, h3, h⟩ := pbind_ok h
    obtain ⟨hv, hr⟩ := by simpa using h
    subst hr
    have l1 := read_u16_length h1
    have l2 := read_u16_length h2
    have l3 := read_u32_length h3
    omega

theorem resource_value_length {l : List Nat} {v : ResourceValue} {r : List Nat}
    (h : ResourceValue.read_from_file l = .ok (v, r)) : r.length ≤ l.length := by
  unfold ResourceValue.read_from_file at h
  obtain ⟨size, r1, h1, h⟩ := pbind_ok h
  obtain ⟨res, r2, h2, h⟩ := pbind_ok h
  obtain ⟨tb, r3, h3, h⟩ := pbind_ok h
  cases htf : ResourceValueType.try_from tb with
  | none => rw [htf] at h; simp at h
  | some dt =>
    rw [htf] at h
    obtain ⟨data, r4, h4, h⟩ := pbind_ok h
    obtain ⟨hv, hr⟩ := by simpa using h
    subst hr
    have l1 := read_u16_length h1
    have l2 := read_u8_length h2
    have l3 := read_u8_length h3
    have l4 := read_u32_length h4
    omega

theorem string_pool_header_length {c : ChunkHeader} {l : List Nat} {v : StringPoolHeader}
    {r : List Nat} (h : StringPoolHeader.read_from_file c l = .ok (v, r)) :
    r.length + 20 = l.length := by
  unfold StringPoolHeader.read_from_file at h
  obtain ⟨a1, r1, h1, h⟩ := pbind_ok h
  obtain ⟨a2, r2, h2, h⟩ := pbind_ok h
  obtain ⟨a3, r3, h3, h⟩ := pbind_ok h
  obtain ⟨a4, r4, h4, h⟩ := pbind_ok h
  obtain ⟨a5, r5, h5, h⟩ := pbind_ok h
  obtain ⟨hv, hr⟩ := by simpa using h
  subst hr
  have l1 := read_u32_length h1
  have l2 := read_u32_length h2
  have l3 := read_u32_length h3
  have l4 := read_u32_length h4
  have l5 := read_u32_length h5
  omega

theorem string_pool_length {c : ChunkHeader} {l : List Nat} {p : StringPool} {r : List Nat}
    (h : StringPool.read_from_file c l = .ok (p, r)) : r.length ≤ l.length := by
  unfold StringPool.read_from_file at h
  obtain ⟨hdr, r1, h1, h⟩ := pbind_ok h
  have l1 := string_pool_header_length h1
  split at h
  · simp at h
  · split at h
    · simp at h
    · obtain ⟨data, r2, h2, h⟩ := pbind_ok h
      have l2 := read_exact_length h2
      rcases hd : decode_pool_strings hdr data with ss | e | _ <;> rw [hd] at h
      · obtain ⟨hv, hr⟩ := by simpa using h
        subst hr
        omega
      · simp at h
      · simp at h

theorem read_u32_list_length {n : Nat} {l : List Nat} {vs : List Nat} {r : List Nat}
    (h : read_u32_list n l = .ok (vs, r)) : r.length ≤ l.length := by
  induction n generalizing l vs r with
  | zero =>
    obtain ⟨hv, hr⟩ := by simpa [read_u32_list] using h
    subst hr
    omega
  | succ n ih =>
    unfold read_u32_list at h
    obtain ⟨v, rest, h1, h⟩ := pbind_ok h
    obtain ⟨vs2, rest2, h2, h⟩ := pbind_ok h
    obtain ⟨hv, hr⟩ := by simpa using h
    subst hr
    have lu := read_u32_length h1
    have li := ih h2
    omega

theorem parse_resource_map_length {c : ChunkHeader} {l : List Nat} {ids : List Nat}
    {r : List Nat} (h : parse_resource_map c l = .ok (ids, r)) : r.length ≤ l.length := by
  exact read_u32_list_length h

theorem xml_node_header_length {c : ChunkHeader} {l : List Nat} {v : XmlNodeHeader}
    {r : List Nat} (h : XmlNodeHeader.read_from_file c l = .ok (v, r)) :
    r.length + 8 = l.length := by
  unfold XmlNodeHeader.read_from_file at h
  obtain ⟨a1, r1, h1, h⟩ := pbind_ok h
  obtain ⟨a2, r2, h2, h⟩ := pbind_ok h
  obtain ⟨hv, hr⟩ := by simpa using h
  subst hr
  have l1 := read_u32_length h1
  have l2 := read_u32_length h2
  omega

theorem xml_start_namespace_length {c : ChunkHeader} {l : List Nat} {v : XmlStartNameSpace}
    {r : List Nat} (h : XmlStartNameSpace.read_from_file c l = .ok (v, r)) :
    r.length ≤ l.length := by
  unfold XmlStartNameSpace.read_from_file at h
  obtain ⟨a1, r1, h1, h⟩ := pbind_ok h
  obtain ⟨a2, r2, h2, h⟩ := pbind_ok h
  obtain ⟨a3, r3, h3, h⟩ := pbind_ok h
  obtain ⟨hv, hr⟩ := by simpa using h
  subst hr
  have l1 := xml_node_header_length h1
  have l2 := read_u32_length h2
  have l3 := read_u32_length h3
  omega

theorem xml_end_namespace_length {c : ChunkHeader} {l : List Nat} {v : XmlEndNameSpace}
    {r : List Nat} (h : XmlEndNameSpace.read_from_file c l = .ok (v, r)) :
    r.length ≤ l.length := by
  unfold XmlEndNameSpace.read_from_file at h
  obtain ⟨a1, r1, h1, h⟩ := pbind_ok h
  obtain ⟨a2, r2, h2, h⟩ := pbind_ok h
  obtain ⟨a3, r3, h3, h⟩ := pbind_ok h
  obtain ⟨hv, hr⟩ := by simpa using h
  subst hr
  have l1 := xml_node_header_length h1
  have l2 := read_u32_length h2
  have l3 := read_u32_length h3
  omega

theorem xml_attr_ext_length {l : List Nat} {v : XmlAttrExt} {r : List Nat}
    (h : XmlAttrExt.read_from_file l = .ok (v, r)) : r.length ≤ l.length := by
  unfold XmlAttrExt.read_from_file at h
  obtain ⟨a1, r1, h1, h⟩ := pbind_ok h
  obtain ⟨a2, r2, h2, h⟩ := pbind_ok h
  obtain ⟨a3, r3, h3, h⟩ := pbind_ok h
  obtain ⟨a4, r4, h4, h⟩ := pbind_ok h
  obtain ⟨a5, r5, h5, h⟩ := pbind_ok h
  obtain ⟨a6, r6, h6, h⟩ := pbind_ok h
  obtain ⟨a7, r7, h7, h⟩ := pbind_ok h
  obtain ⟨a8, r8, h8, h⟩ := pbind_ok h
  obtain ⟨hv, hr⟩ := by simpa using h
  subst hr
  have l1 := read_u32_length h1
  have l2 := read_u32_length h2
  have l3 := read_u16_length h3
  have l4 := read_u16_length h4
  have l5 := read_u16_length h5
  have l6 := read_u16_length h6
  have l7 := read_u16_length h7
  have l8 := read_u16_length h8
  omega

theorem xml_attribute_length {l : List Nat} {v : XmlAttribute} {r : List Nat}
    (h : XmlAttribute.read_from_file l = .ok (v, r)) : r.length ≤ l.length := by
  unfold XmlAttribute.read_from_file at h
  obtain ⟨a1, r1, h1, h⟩ := pbind_ok h
  obtain ⟨a2, r2, h2, h⟩ := pbind_ok h
  obtain ⟨a3, r3, h3, h⟩ := pbind_ok h
  obtain ⟨a4, r4, h4, h⟩ := pbind_ok h
  obtain ⟨hv, hr⟩ := by simpa using h
  subst hr
  have l1 := read_u32_length h1
  have l2 := read_u32_length h2
  have l3 := read_u32_length h3
  have l4 := resource_value_length h4
  omega

theorem read_attributes_length {n : Nat} {l : List Nat} {vs : List XmlAttribute}
    {r : List Nat} (h : read_attributes n l = .ok (vs, r)) : r.length ≤ l.length := by
  induction n generalizing l vs r with
  | zero =>
    obtain ⟨hv, hr⟩ := by simpa [read_attributes] using h
    subst hr
    omega
  | succ n ih =>
    unfold read_attributes at h
    obtain ⟨a, rest, h1, h⟩ := pbind_ok h
    obtain ⟨vs2, rest2, h2, h⟩ := pbind_ok h
    obtain ⟨hv, hr⟩ := by simpa using h
    subst hr
    have la := xml_attribute_length h1
    have li := ih h2
    omega

theorem xml_start_element_length {c : ChunkHeader} {l : List Nat} {v : XmlStartElement}
    {r : List Nat} (h : XmlStartElement.read_from_file c l = .ok (v, r)) :
    r.length ≤ l.length := by
  unfold XmlStartElement.read_from_file at h
  obtain ⟨a1, r1, h1, h⟩ := pbind_ok h
  obtain ⟨a2, r2, h2, h⟩ := pbind_ok h
  obtain ⟨a3, r3, h3, h⟩ := pbind_ok h
  obtain ⟨hv, hr⟩ := by simpa using h
  subst hr
  have l1 := xml_node_header_length h1
  have l2 := xml_attr_ext_length h2
  have l3 := read_attributes_length h3
  omega

theorem xml_end_element_length {c : ChunkHeader} {l : List Nat} {v : XmlEndElement}
    {r : List Nat} (h : XmlEndElement.read_from_file c l = .ok (v, r)) :
    r.length ≤ l.length := by
  unfold XmlEndElement.read_from_file at h
  obtain ⟨a1, r1, h1, h⟩ := pbind_ok h
  obtain ⟨a2, r2, h2, h⟩ := pbind_ok h
  obtain ⟨a3, r3, h3, h⟩ := pbind_ok h
  obtain ⟨hv, hr⟩ := by simpa using h
  subst hr
  have l1 := xml_node_header_length h1
  have l2 := read_u32_length h2
  have l3 := read_u32_length h3
  omega

theorem xml_cdata_length {c : ChunkHeader} {l : List Nat} {v : XmlCdata} {r : List Nat}
    (h : XmlCdata.read_from_file c l = .ok (v, r)) : r.length ≤ l.length := by
  unfold XmlCdata.read_from_file at h
  obtain ⟨a1, r1, h1, h⟩ := pbind_ok h
  obtain ⟨a2, r2, h2, h⟩ := pbind_ok h
  obtain ⟨a3, r3, h3, h⟩ := pbind_ok h
  obtain ⟨hv, hr⟩ := by simpa using h
  subst hr
  have l1 := xml_node_header_length h1
  have l2 := read_u32_length h2
  have l3 := resource_value_length h3
  omega

/-- Any fuel exceeding the input length is enough for the chunk-scan
loop: every iteration that recurses consumes at least the eight header
bytes, so the fuel-exhausted branch of `scan_chunks_fuel` is unreachable
from `scan_chunks` and the fuel choice does not affect the result. -/
theorem scan_chunks_fuel_sufficient :
    ∀ fuel1 fuel2 (elements : List XmlElement) (string_pool : Option StringPool)
      (resource_map : Option (List Nat)) (input : List Nat),
      input.length < fuel1 → input.length < fuel2 →
      scan_chunks_fuel fuel1 elements string_pool resource_map input =
        scan_chunks_fuel fuel2 elements string_pool resource_map input := by
  intro fuel1
  induction fuel1 with
  | zero => intro fuel2 es sp rm input h1 h2; omega
  | succ f ih =>
    intro fuel2 es sp rm input h1 h2
    cases fuel2 with
    | zero => omega
    | succ g =>
      cases hh : ChunkHeader.read_from_file input with
      | err e => cases e <;> simp [scan_chunks_fuel, hh]
      | panic => simp [scan_chunks_fuel, hh]
      | ok p =>
        obtain ⟨header, rest⟩ := p
        have hlt := chunk_header_length hh
        cases htyp : header.typ
        case StringPool =>
          simp only [scan_chunks_fuel, hh, htyp]
          cases hb : StringPool.read_from_file header rest with
          | err e => simp only [hb]
          | panic => simp only [hb]
          | ok q =>
            obtain ⟨v, rest2⟩ := q
            simp only [hb]
            have lb := string_pool_length hb
            exact ih _ _ _ _ _ (by omega) (by omega)
        case XmlResourceMap =>
          simp only [scan_chunks_fuel, hh, htyp]
          cases hb : parse_resource_map header rest with
          | err e => simp only [hb]
          | panic => simp only [hb]
          | ok q =>
            obtain ⟨v, rest2⟩ := q
            simp only [hb]
            have lb := parse_resource_map_length hb
            exact ih _ _ _ _ _ (by omega) (by omega)
        case XmlStartNameSpace =>
          simp only [scan_chunks_fuel, hh, htyp]
          cases hb : XmlStartNameSpace.read_from_file header rest with
          | err e => simp only [hb]
          | panic => simp only [hb]
          | ok q =>
            obtain ⟨v, rest2⟩ := q
            simp only [hb]
            have lb := xml_start_namespace_length hb
            exact ih _ _ _ _ _ (by omega) (by omega)
        case XmlEndNameSpace =>
          simp only [scan_chunks_fuel, hh, htyp]
          cases hb : XmlEndNameSpace.read_from_file header rest with
          | err e => simp only [hb]
          | panic => simp only [hb]
          | ok q =>
            obtain ⟨v, rest2⟩ := q
            simp only [hb]
            have lb := xml_end_namespace_length hb
            exact ih _ _ _ _ _ (by omega) (by omega)
        case XmlStartElement =>
          simp only [scan_chunks_fuel, hh, htyp]
          cases hb : XmlStartElement.read_from_file header rest with
          | err e => simp only [hb]
          | panic => simp only [hb]
          | ok q =>
            obtain ⟨v, rest2⟩ := q
            simp only [hb]
            have lb := xml_start_element_length hb
            exact ih _ _ _ _ _ (by omega) (by omega)
        case XmlEndElement =>
          simp only [scan_chunks_fuel, hh, htyp]
          cases hb : XmlEndElement.read_from_file header rest with
          | err e => simp only [hb]
          | panic => simp only [hb]
          | ok q =>
            obtain ⟨v, rest2⟩ := q
            simp only [hb]
            have lb := xml_end_element_length hb
            exact ih _ _ _ _ _ (by omega) (by omega)
        case XmlCdata =>
          simp only [scan_chunks_fuel, hh, htyp]
          cases hb : XmlCdata.read_from_file header rest with
          | err e => simp only [hb]
          | panic => simp only [hb]
          | ok q =>
            obtain ⟨v, rest2⟩ := q
            simp only [hb]
            have lb := xml_cdata_length hb
            exact ih _ _ _ _ _ (by omega) (by omega)
        all_goals simp [scan_chunks_fuel, hh, htyp]

/-- The tree-building loop never inspects the `ns`/`name` fields of an
EndElement event: event lists with equal `erase_end_refs` images produce
identical results from any starting namespace table and element stack. -/
theorem new_loop_erase (string_pool : StringPool) :
    ∀ es1 es2 : List XmlElement, es1.map erase_end_refs = es2.map erase_end_refs →
      ∀ namespaces stack, new_loop string_pool es1 namespaces stack =
        new_loop string_pool es2 namespaces stack := by
  intro es1
  induction es1 with
  | nil =>
    intro es2 h namespaces stack
    have h2 : es2 = [] := by
      cases es2 with
      | nil => rfl
      | cons x xs => simp at h
    subst h2
    rfl
  | cons e1 t1 ih =>
    intro es2 h namespaces stack
    cases es2 with
    | nil => simp at h
    | cons e2 t2 =>
      simp only [List.map_cons, List.cons.injEq] at h
      obtain ⟨hh, ht⟩ := h
      cases e1 <;> cases e2 <;> simp [erase_end_refs] at hh <;> (try subst hh) <;>
        simp only [new_loop] <;>
        (first
          | exact ih t2 ht namespaces stack
          | (split <;> first | rfl | exact ih t2 ht _ _))

/-! Claim theorems. -/

/-- C1, counterexample: `StringPool::get` does not report out-of-bounds
indices as a `StringNotFound` error.  On a pool of one string, the
out-of-bounds index `3` produces exactly the same "absent" result
(`none`) as the `0xFFFFFFFF` sentinel; no error value exists (the
function's type has no error case, and no `StringNotFound` variant
exists in the crate). -/
theorem c1_counterexample :
    c1Pool.get 3 = none ∧ c1Pool.get 4294967295 = none ∧ c1Pool.strings.length = 1 :=
  ⟨rfl, rfl, rfl⟩

/-- C1, amended: for every string pool and index, `get` returns `none`
("absent") when the index is the `0xFFFFFFFF` sentinel, returns `none` as
well (not a `StringNotFound` error, which does not exist) when the index
is out of bounds, and otherwise returns the interned string at that
position; in particular the sentinel never yields an error of any kind. -/
theorem c1_get_characterization (p : StringPool) (i : Nat) :
    (i = 4294967295 → p.get i = none) ∧
    (i ≠ 4294967295 → p.strings.length ≤ i → p.get i = none) ∧
    (i ≠ 4294967295 → ∀ s, p.strings.get? i = some s → p.get i = some s) := by
  refine ⟨fun h => by simp [StringPool.get, h], fun h hle => ?_, fun h s hs => ?_⟩
  · simp only [StringPool.get, if_neg h]
    exact List.get?_eq_none.mpr hle
  · simp only [StringPool.get, if_neg h]
    exact hs

/-- C1, witness: the characterization evaluated on the one-string pool:
the sentinel and the out-of-bounds index `5` are both absent, index `0`
is found. -/
theorem c1_witness :
    c1Pool.get 4294967295 = none ∧ c1Pool.get 5 = none ∧ c1Pool.get 0 = some "a" :=
  ⟨(c1_get_characterization c1Pool 4294967295).1 rfl,
   (c1_get_characterization c1Pool 5).2.1 (by decide) (by decide),
   (c1_get_characterization c1Pool 0).2.2 (by decide) "a" rfl⟩

/-- C2, counterexample: a stream consisting of a single StartElement and
no EndElement — the element stack is still non-empty at end-of-input —
is accepted by `XmlDocument::new` with a successful result whose root is
absent; no `IncompleteDocument` error is reported (the function cannot
report errors at all). -/
theorem c2_counterexample :
    XmlDocument.new [.xmlStartElement c2Start] c2Pool [] = some ⟨none⟩ := rfl

/-- C2, amended: when the event stream is exhausted, the builder loop of
`XmlDocument::new` returns a `Document` with an absent root, whatever
namespace table and element stack (in particular a still non-empty one)
it has reached — the excess of StartElements is accepted silently
instead of being reported as an `IncompleteDocument` error. -/
theorem c2_end_of_stream (string_pool : StringPool) (namespaces : List (String × String))
    (stack : List Element) :
    new_loop string_pool [] namespaces stack = some ⟨none⟩ := rfl

/-- C3, counterexample: a buffer cut off immediately after the 8-byte
top-level `Xml` header makes `parse` panic (`string_pool.unwrap()` on
`None`), not return a `TruncatedInput`/`IoError` error. -/
theorem c3_counterexample :
    parse [3, 0, 8, 0, 8, 0, 0, 0] = .panic := rfl

/-- C3, amended: input exhaustion during a chunk-header read — exactly at
a header boundary or in the middle of a header field alike — surfaces as
an `IoError` from `ChunkHeader::read_from_file` and terminates the scan
loop cleanly without error; when that happens before any chunk was seen
(e.g. a buffer cut off right after the top-level header), `parse` then
panics on the missing string pool instead of returning an error. -/
theorem c3_scan_exhaustion (elements : List XmlElement) (string_pool : Option StringPool)
    (resource_map : Option (List Nat)) (input : List Nat)
    (h : ChunkHeader.read_from_file input = .err .IoError) :
    scan_chunks elements string_pool resource_map input =
      .ok (elements, string_pool, resource_map) ∧
    parse_body input = .panic := by
  have hscan : ∀ (es : List XmlElement) (sp : Option StringPool) (rm : Option (List Nat)),
      scan_chunks es sp rm input = .ok (es, sp, rm) := by
    intro es sp rm
    simp [scan_chunks, scan_chunks_fuel, h]
  refine ⟨hscan elements string_pool resource_map, ?_⟩
  unfold parse_body
  rw [hscan [] none none]
  rfl

/-- C3, witness: the amended statement evaluated on the empty remainder
(the shortest input exhausted at a header boundary). -/
theorem c3_witness :
    scan_chunks [] none none [] = .ok ([], none, none) ∧ parse_body [] = .panic :=
  c3_scan_exhaustion [] none none [] rfl

/-- C4, counterexample: an input holding the top-level header followed by
one ResourceMap chunk but no StringPool chunk makes `parse` panic
(`string_pool.unwrap()` on `None`) instead of returning a
missing-required-chunk error to the caller. -/
theorem c4_counterexample :
    parse [3, 0, 8, 0, 8, 0, 0, 0, 128, 1, 8, 0, 8, 0, 0, 0] = .panic := rfl

/-- C4, amended: when the chunk scan completes without a StringPool chunk
(or with one but without a ResourceMap chunk), the public `parse` panics
on its `unwrap()` calls rather than returning an error, while the
(uncalled) `BinaryXmlDocument::read_from_file` returns the dedicated
errors `MissingStringPoolChunk` / `MissingResourceMapChunk`. -/
theorem c4_missing_chunks (input : List Nat) (elements : List XmlElement) :
    (∀ resource_map, scan_chunks [] none none input = .ok (elements, none, resource_map) →
      parse_body input = .panic ∧ bxml_body input = .err .MissingStringPoolChunk) ∧
    (∀ string_pool, scan_chunks [] none none input = .ok (elements, some string_pool, none) →
      parse_body input = .panic ∧ bxml_body input = .err .MissingResourceMapChunk) := by
  constructor
  · intro resource_map h
    unfold parse_body bxml_body
    rw [h]
    exact ⟨rfl, rfl⟩
  · intro string_pool h
    unfold parse_body bxml_body
    rw [h]
    exact ⟨rfl, rfl⟩

/-- C4, witness: the amended statement evaluated on an empty chunk list
(no StringPool chunk) and on `c4Input` (a StringPool chunk but no
ResourceMap chunk). -/
theorem c4_witness :
    (parse_body [] = .panic ∧ bxml_body [] = .err .MissingStringPoolChunk) ∧
    (parse_body c4Input = .panic ∧ bxml_body c4Input = .err .MissingResourceMapChunk) :=
  ⟨(c4_missing_chunks [] []).1 none rfl,
   (c4_missing_chunks c4Input []).2 c4Pool rfl⟩

/-- C5: `ResourceValue::get_value` resolves a `String` value to the
pooled string at index `data`, a `Dec` value to the decimal text of
`data`, a `Hex` value to the literal `"0x"` followed by the *decimal*
digits of `data`, a `Boolean` value to `"false"` iff `data == 0` and
`"true"` otherwise, and every other type to the placeholder
`"ResourceValueType::<TypeName>/<data>"`. -/
theorem c5_get_value (v : ResourceValue) (string_pool : StringPool) :
    (v.data_type = .String → ∀ s, string_pool.get v.data = some s →
      v.get_value string_pool = some s) ∧
    (v.data_type = .Dec → v.get_value string_pool = some (toString v.data)) ∧
    (v.data_type = .Hex → v.get_value string_pool = some ("0x" ++ toString v.data)) ∧
    (v.data_type = .Boolean →
      v.get_value string_pool = some (if v.data = 0 then "false" else "true")) ∧
    (v.data_type ≠ .String → v.data_type ≠ .Dec → v.data_type ≠ .Hex →
      v.data_type ≠ .Boolean →
      v.get_value string_pool =
        some ("ResourceValueType::" ++ debugName v.data_type ++ "/" ++ toString v.data)) := by
  obtain ⟨size, res, dt, data⟩ := v
  refine ⟨?_, ?_, ?_, ?_, ?_⟩
  · intro h s hs
    cases h
    simpa only [ResourceValue.get_value] using hs
  · intro h
    cases h
    rfl
  · intro h
    cases h
    rfl
  · intro h
    cases h
    cases data <;> rfl
  · intro h1 h2 h3 h4
    cases dt <;> simp_all [ResourceValue.get_value, debugName]

/-- C5, witness: the resolution table evaluated on concrete values —
`String 0` over the one-string pool, `Dec 42`, `Hex 255` (decimal digits
after `"0x"`), `Boolean 0`, `Boolean 1`, and `Null 5` as a placeholder
case. -/
theorem c5_witness :
    (ResourceValue.mk 8 0 .String 0).get_value c1Pool = some "a" ∧
    (ResourceValue.mk 8 0 .Dec 42).get_value c1Pool = some "42" ∧
    (ResourceValue.mk 8 0 .Hex 255).get_value c1Pool = some "0x255" ∧
    (ResourceValue.mk 8 0 .Boolean 0).get_value c1Pool = some "false" ∧
    (ResourceValue.mk 8 0 .Boolean 1).get_value c1Pool = some "true" ∧
    (ResourceValue.mk 8 0 .Null 5).get_value c1Pool = some "ResourceValueType::Null/5" :=
  ⟨(c5_get_value (ResourceValue.mk 8 0 .String 0) c1Pool).1 rfl "a" rfl,
   (c5_get_value (ResourceValue.mk 8 0 .Dec 42) c1Pool).2.1 rfl,
   (c5_get_value (ResourceValue.mk 8 0 .Hex 255) c1Pool).2.2.1 rfl,
   (c5_get_value (ResourceValue.mk 8 0 .Boolean 0) c1Pool).2.2.2.1 rfl,
   (c5_get_value (ResourceValue.mk 8 0 .Boolean 1) c1Pool).2.2.2.1 rfl,
   (c5_get_value (ResourceValue.mk 8 0 .Null 5) c1Pool).2.2.2.2
     (by decide) (by decide) (by decide) (by decide)⟩

/-- C6, counterexample: an attribute whose `ns` reference resolves to a
URI that was never registered by a StartNamespace event makes the
attribute resolution — and with it the whole StartElement processing —
panic (`namespaces.get(&n).unwrap()` on `None`, modelled `none`); no
`NamespaceNotFound` error is raised (no such error exists in the
crate). -/
theorem c6_counterexample :
    resolve_attribute c6Pool [] c6Attr = none ∧
    process_start_element c6Start c6Pool [] = none :=
  ⟨rfl, rfl⟩

/-- C6, amended: for every attribute of a StartElement event, the key
inserted into the element's attribute mapping is `"<prefix>:<name>"`
when the attribute's `ns` reference resolves to a URI, with the prefix
taken from the namespace table, and the builder panics (not a
`NamespaceNotFound` error, which does not exist) if that URI was never
registered by a StartNamespace event; when the `ns` reference is absent
the key is the local name alone. -/
theorem c6_attribute_key (string_pool : StringPool) (namespaces : List (String × String))
    (attr : XmlAttribute) (name value : String)
    (hname : string_pool.get attr.name = some name)
    (hvalue : attr.typed_value.get_value string_pool = some value) :
    (string_pool.get attr.ns = none →
      resolve_attribute string_pool namespaces attr = some (name, value)) ∧
    (∀ uri, string_pool.get attr.ns = some uri →
      (∀ nsp, hashmap_get namespaces uri = some nsp →
        resolve_attribute string_pool namespaces attr =
          some (nsp ++ ":" ++ name, value)) ∧
      (hashmap_get namespaces uri = none →
        resolve_attribute string_pool namespaces attr = none)) := by
  refine ⟨fun h => ?_, fun uri h => ⟨fun nsp hp => ?_, fun hp => ?_⟩⟩
  · simp [resolve_attribute, hname, hvalue, h]
  · simp [resolve_attribute, hname, hvalue, h, hp]
  · simp [resolve_attribute, hname, hvalue, h, hp]

/-- C6, witness: with the Android URI registered under prefix
`"android"`, the attribute named `versionCode` in that namespace gets
the key `"android:versionCode"`, and the attribute named `debuggable`
with no namespace gets the key `"debuggable"`. -/
theorem c6_witness :
    resolve_attribute c6PoolA c6NsTable c6AttrA = some ("android:versionCode", "42") ∧
    resolve_attribute c6PoolA c6NsTable c6AttrB = some ("debuggable", "true") :=
  ⟨((c6_attribute_key c6PoolA c6NsTable c6AttrA "versionCode" "42" rfl rfl).2
      "http://schemas.android.com/apk/res/android" rfl).1 "android" rfl,
   (c6_attribute_key c6PoolA c6NsTable c6AttrB "debuggable" "true" rfl rfl).1 rfl⟩

/-- C7: processing an EndElement event pops the element stack; when the
stack thereby becomes empty the popped element becomes the `Document`
root and the loop returns at once, ignoring all remaining events;
otherwise the popped element is appended as the last child of the new
stack top, so children appear in encounter order. -/
theorem c7_end_element (string_pool : StringPool) (namespaces : List (String × String))
    (e : XmlEndElement) (rest : List XmlElement) (el : Element) :
    (new_loop string_pool (.xmlEndElement e :: rest) namespaces [el] =
      some ⟨some (Node.element el)⟩) ∧
    (∀ top stack2,
      new_loop string_pool (.xmlEndElement e :: rest) namespaces (el :: top :: stack2) =
        new_loop string_pool rest namespaces
          (top.insert_children (Node.element el) :: stack2)) :=
  ⟨rfl, fun _ _ => rfl⟩

/-- C8: the assembled tree does not depend on the resource map —
`XmlDocument::new` produces identical documents for any two resource-map
contents, given the same events and string pool (the builder receives
the map as `_resource_map` and never reads it). -/
theorem c8_resource_map_ignored (elements : List XmlElement) (string_pool : StringPool)
    (rm1 rm2 : List Nat) :
    XmlDocument.new elements string_pool rm1 = XmlDocument.new elements string_pool rm2 := rfl

/-- C9: tree assembly never inspects the `ns` or `name` references of an
EndElement event — any two event lists differing only in those fields
produce identical documents, so a closing tag whose name does not match
the element being closed still closes it. -/
theorem c9_end_refs_ignored (es1 es2 : List XmlElement)
    (h : es1.map erase_end_refs = es2.map erase_end_refs)
    (string_pool : StringPool) (resource_map : List Nat) :
    XmlDocument.new es1 string_pool resource_map =
      XmlDocument.new es2 string_pool resource_map :=
  new_loop_erase string_pool es1 es2 h [] []

/-- C9, witness: closing `manifest` with an EndElement whose `ns`/`name`
references are `5`/`7` gives the same document as closing it with
references `1`/`2` — the mismatched closing tag is silently accepted. -/
theorem c9_witness :
    XmlDocument.new [.xmlStartElement c2Start, .xmlEndElement c9End1] c2Pool [] =
      XmlDocument.new [.xmlStartElement c2Start, .xmlEndElement c9End2] c2Pool [] :=
  c9_end_refs_ignored [.xmlStartElement c2Start, .xmlEndElement c9End1]
    [.xmlStartElement c2Start, .xmlEndElement c9End2] rfl c2Pool []

/-- C10: reading the 8-byte `ResourceValue` record succeeds exactly for
the fourteen enumerated `dataType` bytes (`0x00`–`0x06`, `0x10`–`0x12`,
`0x1c`–`0x1f`); for every other `dataType` byte the read panics (the
`unwrap()` on `try_from` aborts the whole decode) instead of returning a
decode error to the caller. -/
theorem c10_resource_value_read (b0 b1 b2 t d0 d1 d2 d3 : Nat) (rest : List Nat)
    (ht : t < 256) :
    ((ResourceValueType.try_from t).isSome ↔
      t ∈ [0, 1, 2, 3, 4, 5, 6, 16, 17, 18, 28, 29, 30, 31]) ∧
    (∀ dt, ResourceValueType.try_from t = some dt →
      ResourceValue.read_from_file (b0 :: b1 :: b2 :: t :: d0 :: d1 :: d2 :: d3 :: rest) =
        .ok (⟨b0 % 256 + 256 * (b1 % 256), b2 % 256, dt,
          d0 % 256 + 256 * (d1 % 256) + 65536 * (d2 % 256) + 16777216 * (d3 % 256)⟩,
          rest)) ∧
    (ResourceValueType.try_from t = none →
      ResourceValue.read_from_file (b0 :: b1 :: b2 :: t :: d0 :: d1 :: d2 :: d3 :: rest) =
        .panic) := by
  have hmod : t % 256 = t := Nat.mod_eq_of_lt ht
  have step : ResourceValue.read_from_file (b0 :: b1 :: b2 :: t :: d0 :: d1 :: d2 :: d3 :: rest) =
      (match ResourceValueType.try_from (t % 256) with
       | none => PRes.panic
       | some data_type =>
         .ok (⟨b0 % 256 + 256 * (b1 % 256), b2 % 256, data_type,
           d0 % 256 + 256 * (d1 % 256) + 65536 * (d2 % 256) + 16777216 * (d3 % 256)⟩,
           rest)) := rfl
  rw [hmod] at step
  refine ⟨?_, ?_, ?_⟩
  · interval_cases t <;> decide
  · intro dt hdt
    rw [hdt] at step
    exact step
  · intro hdt
    rw [hdt] at step
    exact step

/-- C10, witness: type byte `0x03` (`String`) reads successfully while
the unlisted type byte `0x07` panics. -/
theorem c10_witness :
    ResourceValue.read_from_file [0, 0, 0, 3, 1, 0, 0, 0] = .ok (⟨0, 0, .String, 1⟩, []) ∧
    ResourceValue.read_from_file [0, 0, 0, 7, 1, 0, 0, 0] = .panic :=
  ⟨(c10_resource_value_read 0 0 0 3 1 0 0 0 [] (by decide)).2.1 .String rfl,
   (c10_resource_value_read 0 0 0 7 1 0 0 0 [] (by decide)).2.2 rfl⟩

end Axml
